import Mathlib

/-!
Verification of the gopuntes note browser (Go, Bubble Tea TUI) against its
natural-language specification.

The development shallowly embeds the program of `main.go` (and, where a claim
references it, the earlier single-file variant) as pure Lean functions:

* the filesystem is an explicit tree (`FSTree`), and `filepath.WalkDir` is the
  deterministic depth-first `walk`;
* each asynchronous command (`loadConfig`, `saveConfig`, `findNotes`,
  `readMarkdownContent`, `openPDF`) becomes a pure function from the relevant
  part of the environment (config-file state, directory tree, read result,
  `runtime.GOOS`, subprocess outcome) to the single result message it emits;
* the Bubble Tea model and its `Update` function become `Model` and `update`,
  with the external charmbracelet collaborators (list widget, text input,
  viewport, glamour renderer) abstracted behind an `Externals` record exactly
  at the operations the program calls on them;
* the executor/message loop becomes a labelled step relation `Step` over a
  system state `Sys` holding the model, the config-file state and the multiset
  of dispatched-but-undelivered commands.

Machine strings are Lean `String`s; `strings.ToLower` is embedded as the
ASCII lowering `lowerStr` (the two agree on every character relevant to the
`.md` / `.pdf` classification).
-/

/-- Characters of `as` appear at the start of `bs` (used by the substring
check of the filter model). -/
def matchesAt : List Char → List Char → Bool
  | [], _ => true
  | _ :: _, [] => false
  | a :: as, b :: bs => a == b && matchesAt as bs

/-- `containsChars needle hay` holds when `needle` occurs contiguously in
`hay`. -/
def containsChars (needle : List Char) : List Char → Bool
  | [] => matchesAt needle []
  | c :: rest => matchesAt needle (c :: rest) || containsChars needle rest

/-- Reversed characters of the last path element: scans the reversed path and
stops at the first slash. -/
def baseRev : List Char → List Char
  | [] => []
  | c :: rest => if c = '/' then [] else c :: baseRev rest

/-- `filepath.Base`-style last element of a slash-separated path (as used by
`item.FilterValue`). -/
def basename (p : String) : String :=
  String.mk (baseRev p.data.reverse).reverse

/-- Scan the reversed characters of a path for the extension: mirrors the Go
`filepath.Ext` loop that walks backwards until a dot or a path separator. -/
def extAux : List Char → List Char → String
  | [], _ => ""
  | c :: rest, acc =>
    if c = '.' then String.mk ('.' :: acc)
    else if c = '/' then ""
    else extAux rest (c :: acc)

/-- `filepath.Ext`: the suffix of the final path element starting at its final
dot, or `""` when the final element has no dot. -/
def filepathExt (p : String) : String :=
  extAux p.data.reverse []

/-- ASCII lowering of a character list (`strings.ToLower` restricted to the
ASCII range, which is all the classification compares against). -/
def lowerChars : List Char → List Char
  | [] => []
  | c :: cs =>
    (if 'A' ≤ c ∧ c ≤ 'Z' then Char.ofNat (c.toNat + 32) else c) :: lowerChars cs

/-- ASCII lowering of a string. -/
def lowerStr (s : String) : String :=
  String.mk (lowerChars s.data)

/-- A list entry of the program: a discovered note (`item` in the source),
holding the full path and the note type string `"md"` or `"pdf"`. -/
structure Item where
  path : String
  noteType : String
deriving DecidableEq, Repr

/-- The persisted configuration (`Config` in the source): the single
`notes_path` field. -/
structure Config where
  notesPath : String
deriving DecidableEq, Repr

/-- A directory tree: the filesystem fragment that a scan walks.  A node is a
plain file or a directory with its children in directory-listing order. -/
inductive FSTree where
  | file (name : String) : FSTree
  | dir (name : String) (children : List FSTree) : FSTree

/-- Name of the root entry of a tree. -/
def FSTree.name : FSTree → String
  | .file n => n
  | .dir n _ => n

mutual
/-- `filepath.WalkDir` visit order over a tree whose own full path is `p`:
every entry is reported as its full path paired with its `IsDir` flag, the
directory itself before its children. -/
def walk (p : String) : FSTree → List (String × Bool)
  | .file _ => [(p, false)]
  | .dir _ cs => (p, true) :: walkChildren p cs

/-- Walk of the children of a directory whose full path is `p`. -/
def walkChildren (p : String) : List FSTree → List (String × Bool)
  | [] => []
  | t :: ts => walk (p ++ "/" ++ t.name) t ++ walkChildren p ts
end

/-- Classification step of `findNotes`: lowercased `filepath.Ext`, `.md` maps
to a Markdown item, `.pdf` to a Pdf item, anything else is skipped. -/
def classify (p : String) : Option Item :=
  let ext := lowerStr (filepathExt p)
  if ext = ".md" then some { path := p, noteType := "md" }
  else if ext = ".pdf" then some { path := p, noteType := "pdf" }
  else none

/-- Body of the `WalkDir` callback of `findNotes`: directories are ignored,
files are classified by extension. -/
def entryNote (e : String × Bool) : Option Item :=
  if e.2 then none else classify e.1

/-- The items collected by a successful `findNotes` walk of the tree `t`
rooted at path `root`. -/
def findNotesList (root : String) (t : FSTree) : List Item :=
  ((walk root t).filterMap entryNote)

/-- Key events as the program distinguishes them: `tea.KeyCtrlC`,
`tea.KeyEnter`, escape, a printable character, or any other key. -/
inductive Key where
  | ctrlC : Key
  | enter : Key
  | esc : Key
  | charKey (c : Char) : Key
  | other (s : String) : Key
deriving DecidableEq, Repr

/-- `tea.KeyMsg.String()` for the keys the program inspects by string. -/
def Key.str : Key → String
  | .ctrlC => "ctrl+c"
  | .enter => "enter"
  | .esc => "esc"
  | .charKey c => String.mk [c]
  | .other s => s

/-- The message protocol of the program: terminal events plus the result
messages of the asynchronous commands (`configLoadedMsg`, `notesFoundMsg`,
`configSavedMsg`, `fileContentMsg`, `errorMsg`). -/
inductive Msg where
  | windowSize (w h : Int) : Msg
  | key (k : Key) : Msg
  | configLoaded (config : Config) : Msg
  | notesFound (notes : List Item) : Msg
  | configSaved : Msg
  | fileContent (s : String) : Msg
  | error (e : String) : Msg
deriving DecidableEq, Repr

/-- Messages injected from outside the command executor: terminal input. -/
def Msg.isInput : Msg → Bool
  | .windowSize _ _ => true
  | .key _ => true
  | _ => false

/-- The commands the update loop can dispatch (`tea.Cmd` values of the
source).  `nil` is the absent command, `quit` is `tea.Quit`. -/
inductive NoteCmd where
  | nil : NoteCmd
  | quit : NoteCmd
  | loadConfig : NoteCmd
  | saveConfig (c : Config) : NoteCmd
  | findNotes (root : String) : NoteCmd
  | readMarkdown (path : String) : NoteCmd
  | openPDF (path : String) : NoteCmd
deriving DecidableEq, Repr

/-- The logical operation kinds discussed by the specification: config load,
config save, directory scan, content read, external open. -/
inductive CmdKind where
  | load : CmdKind
  | save : CmdKind
  | scan : CmdKind
  | read : CmdKind
  | openExt : CmdKind
deriving DecidableEq, Repr

/-- Kind of a dispatched command; `nil` and `quit` dispatch no async work. -/
def NoteCmd.kind : NoteCmd → Option CmdKind
  | .nil => none
  | .quit => none
  | .loadConfig => some .load
  | .saveConfig _ => some .save
  | .findNotes _ => some .scan
  | .readMarkdown _ => some .read
  | .openPDF _ => some .openExt

/-- The async commands a returned command adds to the executor queue. -/
def NoteCmd.toPending : NoteCmd → List NoteCmd
  | .nil => []
  | .quit => []
  | c => [c]

/-- State of the config file at its fixed per-user location: missing, present
but not parseable as TOML, or parsed to a `Config` value. -/
inductive ConfigFile where
  | absent : ConfigFile
  | unparsable (e : String) : ConfigFile
  | parsed (c : Config) : ConfigFile
deriving DecidableEq, Repr

/-- The message produced by the `loadConfig` command, as a function of the
`os.UserHomeDir` outcome and of the config-file state: a missing file yields
an empty `configLoadedMsg` (not an error), a parse failure yields an
`errorMsg`, and a parsed file yields its `Config`. -/
def loadConfigMsg (home : Except String String) (f : ConfigFile) : Msg :=
  match home with
  | .error e => .error e
  | .ok _ =>
    match f with
    | .absent => .configLoaded { notesPath := "" }
    | .unparsable e => .error ("failed to load config file: " ++ e)
    | .parsed c => .configLoaded c

/-- Environment outcomes of a `saveConfig` run: each failure point of the Go
function, or full success. -/
inductive SaveEnv where
  | mkdirFail (e : String) : SaveEnv
  | createFail (e : String) : SaveEnv
  | encodeFail (e : String) : SaveEnv
  | ok : SaveEnv
deriving DecidableEq, Repr

/-- Effect and result message of the `saveConfig c` command on the config
file: `MkdirAll` failure leaves the file untouched, `os.Create` failure
likewise, an encode failure leaves the file truncated to the empty document
(which parses to the zero `Config`), and success stores `c` and emits
`configSavedMsg`. -/
def saveConfigRun (home : Except String String) (env : SaveEnv) (c : Config)
    (fs : ConfigFile) : ConfigFile × Msg :=
  match home with
  | .error e => (fs, .error e)
  | .ok _ =>
    match env with
    | .mkdirFail e => (fs, .error ("failed to create config directory: " ++ e))
    | .createFail e => (fs, .error ("failed to create config file: " ++ e))
    | .encodeFail e =>
        (.parsed { notesPath := "" }, .error ("failed to save configuration: " ++ e))
    | .ok => (.parsed c, .configSaved)

/-- The message produced by the `findNotes root` command: a `WalkDir` failure
(missing or untraversable root, the error carrying the cause) becomes an
`errorMsg`; otherwise the classified items of the walk. -/
def findNotesMsg (root : String) (r : Except String FSTree) : Msg :=
  match r with
  | .error e => .error e
  | .ok t => .notesFound (findNotesList root t)

/-- The message produced by the `readMarkdownContent path` command from the
`os.ReadFile` outcome. -/
def readMarkdownMsg (path : String) (r : Except String String) : Msg :=
  match r with
  | .ok content => .fileContent content
  | .error e => .error e

/-- The message produced by the `openPDF path` command: on the three known
platforms the opener subprocess is run and only a launch failure produces a
message (success returns the nil message, which the runtime discards); on any
other platform an `errorMsg` naming the platform is produced without running
anything. -/
def openPDFMsg (goos path : String) (runErr : Option String) : Option Msg :=
  if goos = "darwin" ∨ goos = "linux" ∨ goos = "windows" then
    match runErr with
    | some e => some (.error ("failed to open PDF file: " ++ e))
    | none => none
  else some (.error ("unsupported operating system: " ++ goos))

/-- The three values of the `appState` enum of the source. -/
inductive AppState where
  | stateInitial : AppState
  | statePromptForPath : AppState
  | stateShowList : AppState
deriving DecidableEq, Repr

/-- Model of the external bubbles list widget at the interface the program
uses: the item collection, the cursor, whether an interactive filter is being
typed (`FilterState() == Filtering`), the committed filter text, and the
layout size set by `SetSize`. -/
structure ListModel where
  items : List Item
  index : Nat
  filtering : Bool
  filterText : String
  width : Int
  height : Int
deriving DecidableEq, Repr

/-- Items currently visible: all of them without a filter, otherwise those
whose base name contains the filter text case-insensitively. -/
def ListModel.visibleItems (l : ListModel) : List Item :=
  if l.filterText = "" then l.items
  else l.items.filter
    (fun i => containsChars (lowerStr l.filterText).data (lowerStr (basename i.path)).data)

/-- `list.SelectedItem()`: the visible item under the cursor, if any. -/
def ListModel.selectedItem (l : ListModel) : Option Item :=
  l.visibleItems.get? l.index

/-- `list.SetItems`: replace the item collection. -/
def ListModel.setItems (l : ListModel) (its : List Item) : ListModel :=
  { l with items := its }

/-- `list.SetSize`. -/
def ListModel.setSize (l : ListModel) (w h : Int) : ListModel :=
  { l with width := w, height := h }

/-- Model of the external text input at the interface the program uses: its
current value. -/
structure TextInputModel where
  value : String
deriving DecidableEq, Repr

/-- Model of the external viewport at the interface the program uses: layout
size, content set by `SetContent`, and vertical scroll offset (`GotoTop`
resets it to zero). -/
structure ViewportModel where
  width : Int
  height : Int
  content : String
  yOffset : Int
deriving DecidableEq, Repr

/-- The `model` struct of the source. `err` plays the role of the terminal
Fatal state: once set, the session quits and only the error is rendered. -/
structure Model where
  state : AppState
  list : ListModel
  textInput : TextInputModel
  viewport : ViewportModel
  showViewport : Bool
  config : Config
  err : Option String
deriving DecidableEq, Repr

/-- The external charmbracelet collaborators, abstracted exactly at the calls
the program makes: the glamour renderer (markdown and wrap width to styled
text or error) and the internal update functions of the list, text-input and
viewport widgets. -/
structure Externals where
  render : String → Int → Except String String
  listUpdate : Msg → ListModel → ListModel × NoteCmd
  textInputUpdate : Msg → TextInputModel → TextInputModel × NoteCmd
  viewportUpdate : Msg → ViewportModel → ViewportModel × NoteCmd

/-- A concrete instantiation of the collaborators: rendering is the identity
and the widgets ignore messages.  Used to close universally-quantified
statements at an explicit input. -/
def extDefault : Externals where
  render := fun s _ => .ok s
  listUpdate := fun _ l => (l, .nil)
  textInputUpdate := fun _ t => (t, .nil)
  viewportUpdate := fun _ v => (v, .nil)

/-- `initialModel()` of the source: initial state, empty list, empty text
input, 80x24 viewport. -/
def initialModel : Model where
  state := .stateInitial
  list := { items := [], index := 0, filtering := false, filterText := "",
            width := 0, height := 0 }
  textInput := { value := "" }
  viewport := { width := 80, height := 24, content := "", yOffset := 0 }
  showViewport := false
  config := { notesPath := "" }
  err := none

/-- `model.Init()`: the startup command is a config load. -/
def initCmd : NoteCmd := .loadConfig

/-- `updatePromptView`: enter saves the typed path, everything else goes to
the text input widget. -/
def updatePromptView (ext : Externals) (msg : Msg) (m : Model) : Model × NoteCmd :=
  match msg with
  | .key .enter => (m, .saveConfig { notesPath := m.textInput.value })
  | _ =>
    let r := ext.textInputUpdate msg m.textInput
    ({ m with textInput := r.1 }, r.2)

/-- `updateListView`: viewport keys when the viewport is shown; otherwise
enter on a selected item dispatches a read (Markdown) or an external open
(Pdf); a delivered file content is rendered into the viewport, a render
failure being fatal; all other messages go to the list widget. -/
def updateListView (ext : Externals) (msg : Msg) (m : Model) : Model × NoteCmd :=
  match msg with
  | .key k =>
    if m.showViewport then
      if k.str = "q" ∨ k.str = "esc" then ({ m with showViewport := false }, .nil)
      else
        let r := ext.viewportUpdate msg m.viewport
        ({ m with viewport := r.1 }, r.2)
    else if m.list.filtering then
      let r := ext.listUpdate msg m.list
      ({ m with list := r.1 }, r.2)
    else if k = .enter then
      match m.list.selectedItem with
      | none => (m, .nil)
      | some i =>
        if i.noteType = "md" then (m, .readMarkdown i.path)
        else if i.noteType = "pdf" then (m, .openPDF i.path)
        else
          let r := ext.listUpdate msg m.list
          ({ m with list := r.1 }, r.2)
    else
      let r := ext.listUpdate msg m.list
      ({ m with list := r.1 }, r.2)
  | .fileContent s =>
    let m1 := { m with showViewport := true }
    match ext.render s m1.viewport.width with
    | .error e => ({ m1 with err := some e }, .quit)
    | .ok styled =>
      ({ m1 with viewport := { m1.viewport with content := styled, yOffset := 0 } }, .nil)
  | _ =>
    let r := ext.listUpdate msg m.list
    ({ m with list := r.1 }, r.2)

/-- Fallthrough of `model.Update` to the state-specific sub-update. -/
def delegate (ext : Externals) (m : Model) (msg : Msg) : Model × NoteCmd :=
  match m.state with
  | .stateInitial => (m, .nil)
  | .statePromptForPath => updatePromptView ext msg m
  | .stateShowList => updateListView ext msg m

/-- `model.Update` of the source: resize adjusts layout only; ctrl-c quits;
a loaded config with an empty path enters the prompt while a non-empty one
enters the list and dispatches a scan; found notes populate the list; a save
result re-dispatches a load; an error message records the error and quits;
everything else is delegated by state. -/
def update (ext : Externals) (m : Model) (msg : Msg) : Model × NoteCmd :=
  match msg with
  | .windowSize w h =>
    ({ m with list := m.list.setSize (w - 4) (h - 2),
              viewport := { m.viewport with width := w - 4, height := h - 2 } }, .nil)
  | .key k =>
    if k = .ctrlC then (m, .quit) else delegate ext m msg
  | .configLoaded c =>
    if c.notesPath = "" then ({ m with state := .statePromptForPath }, .nil)
    else ({ m with config := c, state := .stateShowList }, .findNotes c.notesPath)
  | .notesFound notes =>
    ({ m with list := m.list.setItems notes }, .nil)
  | .configSaved => (m, .loadConfig)
  | .error e => ({ m with err := some e }, .quit)
  | _ => delegate ext m msg

/-- Delivery of an optional result message: the Bubble Tea runtime discards a
nil message (a command that returned nothing leaves the model untouched). -/
def deliver (ext : Externals) (m : Model) : Option Msg → Model × NoteCmd
  | none => (m, .nil)
  | some msg => update ext m msg

/-- Plain-text skeleton of the list frame (the visual styling is external). -/
def listViewText (l : ListModel) : String :=
  l.visibleItems.foldl (fun acc i => acc ++ "\n" ++ basename i.path) "Your Notes"

/-- `model.View` stripped of the external styling: an error, once recorded,
is the only thing rendered. -/
def Model.view (m : Model) : String :=
  match m.err with
  | some e => "Error: " ++ e
  | none =>
    match m.state with
    | .statePromptForPath =>
      "Welcome to gopuntes!\n\nPlease enter the full path to your notes folder:\n\n"
        ++ m.textInput.value ++ "\n\n(press enter to save)"
    | .stateShowList =>
      if m.showViewport then m.viewport.content else listViewText m.list
    | .stateInitial => "Initializing..."

/-- Exit code of `main` in `main.go`: `p.Run` only reports terminal failures
(`log.Fatalf` exits 1 on those); a session ended by `tea.Quit` — whether after
ctrl-c or after an `errorMsg` — exits 0.  The recorded `m.err` does not feed
into the exit code. -/
def mainGoExitCode (terminalErr : Option String) : Nat :=
  if terminalErr.isSome then 1 else 0

/-- Exit code of `main` in the earlier single-file variant: a config
initialization failure exits 1 (`os.Exit(1)`), a scan failure exits 1
(`log.Fatalf`), and otherwise the TUI runs, a terminal failure exiting 1 and
anything else exiting 0. -/
def mainV0ExitCode (cfg : Except String Config)
    (notes : Except String (List Item)) (terminalErr : Option String) : Nat :=
  match cfg with
  | .error _ => 1
  | .ok _ =>
    match notes with
    | .error _ => 1
    | .ok _ => if terminalErr.isSome then 1 else 0

/-- Whole-system state of a session: the Bubble Tea model, the state of the
config file on disk, and the commands dispatched to the executor whose result
has not yet been delivered back into the update loop. -/
structure Sys where
  m : Model
  fs : ConfigFile
  pending : List NoteCmd
deriving DecidableEq, Repr

/-- Execution of one dispatched command against the environment: the config
file it leaves behind and the (optional) result message it delivers.  The
environment parameters (home directory lookup, save failure point, directory
tree, read outcome, platform and subprocess outcome) are free: any
instantiation is a possible execution. -/
inductive Delivers : ConfigFile → NoteCmd → ConfigFile → Option Msg → Prop where
  | load (fs : ConfigFile) (home : Except String String) :
      Delivers fs .loadConfig fs (some (loadConfigMsg home fs))
  | save (fs : ConfigFile) (home : Except String String) (env : SaveEnv) (c : Config) :
      Delivers fs (.saveConfig c) (saveConfigRun home env c fs).1
        (some (saveConfigRun home env c fs).2)
  | scan (fs : ConfigFile) (root : String) (r : Except String FSTree) :
      Delivers fs (.findNotes root) fs (some (findNotesMsg root r))
  | read (fs : ConfigFile) (p : String) (r : Except String String) :
      Delivers fs (.readMarkdown p) fs (some (readMarkdownMsg p r))
  | openExt (fs : ConfigFile) (p goos : String) (runErr : Option String) :
      Delivers fs (.openPDF p) fs (openPDFMsg goos p runErr)

/-- One step of the session, labelled by the command the update loop returned
in that step: either a terminal input event processed by `update`, or the
delivery of the result of one outstanding command. -/
inductive Step (ext : Externals) : Sys → NoteCmd → Sys → Prop where
  | input (s : Sys) (msg : Msg) (m2 : Model) (c : NoteCmd)
      (hmsg : msg.isInput = true) (hu : update ext s.m msg = (m2, c)) :
      Step ext s c ⟨m2, s.fs, s.pending ++ c.toPending⟩
  | deliverStep (s : Sys) (cmd : NoteCmd) (l1 l2 : List NoteCmd)
      (fs2 : ConfigFile) (res : Option Msg) (m2 : Model) (c : NoteCmd)
      (hp : s.pending = l1 ++ cmd :: l2) (hd : Delivers s.fs cmd fs2 res)
      (hu : deliver ext s.m res = (m2, c)) :
      Step ext s c ⟨m2, fs2, (l1 ++ l2) ++ c.toPending⟩

/-- Session states reachable from startup: the initial model with the startup
`loadConfig` command outstanding, over an arbitrary initial config file. -/
inductive Reachable (ext : Externals) : Sys → Prop where
  | init (fs : ConfigFile) : Reachable ext ⟨initialModel, fs, [initCmd]⟩
  | step (s : Sys) (c : NoteCmd) (s2 : Sys) :
      Reachable ext s → Step ext s c s2 → Reachable ext s2

/-- The in-flight exclusion property of the specification: no reachable step
dispatches a command whose kind is already outstanding. -/
def noDoubleDispatch (ext : Externals) : Prop :=
  ∀ s c s2, Reachable ext s → Step ext s c s2 →
    ∀ k, c.kind = some k → ∀ c2 ∈ s.pending, c2.kind ≠ some k

theorem classify_cases {p : String} {it : Item} (h : classify p = some it) :
    it.path = p
    ∧ ((lowerStr (filepathExt p) = ".md" ∧ it.noteType = "md")
      ∨ (lowerStr (filepathExt p) = ".pdf" ∧ it.noteType = "pdf")) := by
  simp only [classify] at h
  split at h
  · injection h with h2
    subst h2
    exact ⟨rfl, Or.inl ⟨by assumption, rfl⟩⟩
  · split at h
    · injection h with h2
      subst h2
      exact ⟨rfl, Or.inr ⟨by assumption, rfl⟩⟩
    · exact absurd h (by simp)

theorem classify_md {p : String} (h : lowerStr (filepathExt p) = ".md") :
    classify p = some { path := p, noteType := "md" } := by
  simp [classify, h]

theorem classify_pdf {p : String} (h : lowerStr (filepathExt p) = ".pdf") :
    classify p = some { path := p, noteType := "pdf" } := by
  simp [classify, h]

theorem entryNote_eq_some {e : String × Bool} {it : Item} (h : entryNote e = some it) :
    e = (it.path, false) := by
  obtain ⟨p, b⟩ := e
  by_cases hb : b
  · subst hb
    simp [entryNote] at h
  · have hb0 : b = false := by simpa using hb
    subst hb0
    have hc : classify p = some it := by simpa [entryNote] using h
    have h1 := (classify_cases hc).1
    simp [h1]

/-- Claim C1: over any directory tree with distinct entry paths, `findNotes`
returns exactly the non-directory entries whose ASCII-lowercased extension is
`.md` or `.pdf`, `.md` ones classified as Markdown and `.pdf` ones as Pdf,
without duplicates, and the walk of an existing tree produces a
`notesFoundMsg` (never an error) with any other extension skipped. -/
theorem findNotes_scan_correct (root : String) (t : FSTree)
    (hnd : ((walk root t).map Prod.fst).Nodup) :
    (∀ it : Item, it ∈ findNotesList root t ↔
      ((it.path, false) ∈ walk root t
        ∧ ((lowerStr (filepathExt it.path) = ".md" ∧ it.noteType = "md")
          ∨ (lowerStr (filepathExt it.path) = ".pdf" ∧ it.noteType = "pdf"))))
    ∧ (findNotesList root t).Nodup
    ∧ findNotesMsg root (.ok t) = .notesFound (findNotesList root t) := by
  refine ⟨?_, ?_, rfl⟩
  · intro it
    constructor
    · intro hmem
      rw [findNotesList, List.mem_filterMap] at hmem
      obtain ⟨e, he, hf⟩ := hmem
      obtain ⟨p, b⟩ := e
      by_cases hb : b
      · subst hb
        simp [entryNote] at hf
      · have hb0 : b = false := by simpa using hb
        subst hb0
        have hc : classify p = some it := by simpa [entryNote] using hf
        obtain ⟨hp, hcase⟩ := classify_cases hc
        subst hp
        exact ⟨he, hcase⟩
    · rintro ⟨hmem, hcase⟩
      rw [findNotesList, List.mem_filterMap]
      refine ⟨(it.path, false), hmem, ?_⟩
      rcases hcase with ⟨hext, hty⟩ | ⟨hext, hty⟩
      · have hcl := classify_md hext
        obtain ⟨ip, ity⟩ := it
        simp only at hty
        subst hty
        simpa [entryNote] using hcl
      · have hcl := classify_pdf hext
        obtain ⟨ip, ity⟩ := it
        simp only at hty
        subst hty
        simpa [entryNote] using hcl
  · have hwalk : (walk root t).Nodup := hnd.of_map
    refine hwalk.filterMap ?_
    intro a a2 b hb hb2
    rw [Option.mem_def] at hb hb2
    rw [entryNote_eq_some hb, entryNote_eq_some hb2]

/-- Concrete directory tree exercising all three extensions, upper case, and
a nested subdirectory. -/
def sampleTree : FSTree :=
  .dir "notes" [.file "a.md", .file "b.PDF", .file "c.txt", .dir "sub" [.file "d.md"]]

/-- Witness for claim C1 at `sampleTree`. -/
theorem findNotes_scan_correct_witness :
    ((walk "/r" sampleTree).map Prod.fst).Nodup
    ∧ ((∀ it : Item, it ∈ findNotesList "/r" sampleTree ↔
        ((it.path, false) ∈ walk "/r" sampleTree
          ∧ ((lowerStr (filepathExt it.path) = ".md" ∧ it.noteType = "md")
            ∨ (lowerStr (filepathExt it.path) = ".pdf" ∧ it.noteType = "pdf"))))
      ∧ (findNotesList "/r" sampleTree).Nodup
      ∧ findNotesMsg "/r" (.ok sampleTree) = .notesFound (findNotesList "/r" sampleTree)) :=
  ⟨by decide, findNotes_scan_correct "/r" sampleTree (by decide)⟩

/-- Claim C2: a missing config file loads as an empty `configLoadedMsg` (not
an error) and sends the state machine to the path prompt; an unparsable file
loads as an `errorMsg`, which records the error and quits (Fatal); a parsed
config with an empty path produces literally the same message as a missing
file, hence the identical re-prompt. -/
theorem configLoad_outcomes (ext : Externals) (m : Model) (h e : String) :
    (loadConfigMsg (.ok h) .absent = .configLoaded { notesPath := "" }
      ∧ update ext m (loadConfigMsg (.ok h) .absent)
          = ({ m with state := .statePromptForPath }, .nil))
    ∧ (loadConfigMsg (.ok h) (.unparsable e)
          = .error ("failed to load config file: " ++ e)
      ∧ update ext m (.error ("failed to load config file: " ++ e))
          = ({ m with err := some ("failed to load config file: " ++ e) }, .quit))
    ∧ loadConfigMsg (.ok h) (.parsed { notesPath := "" }) = loadConfigMsg (.ok h) .absent :=
  ⟨⟨rfl, rfl⟩, ⟨rfl, rfl⟩, rfl⟩

/-- Claim C4 (amended): a successful save result dispatches a fresh
`ConfigStore.load`, leaving the model — and in particular its state field —
unchanged, so the machine stays in the prompt rather than entering a
distinct awaiting-config state. -/
theorem configSaved_redispatch (ext : Externals) (m : Model) :
    update ext m .configSaved = (m, .loadConfig) := rfl

/-- The model sitting at the path prompt. -/
def promptModel : Model :=
  { initialModel with state := .statePromptForPath }

/-- Claim C4, counterexample: from the prompt, a successful save result does
dispatch the load, but the next state is still `statePromptForPath`, not the
initial awaiting-config state the claim requires. -/
theorem configSaved_state_counterexample :
    (update extDefault promptModel .configSaved).2 = .loadConfig
    ∧ (update extDefault promptModel .configSaved).1.state = .statePromptForPath
    ∧ AppState.statePromptForPath ≠ AppState.stateInitial :=
  ⟨rfl, rfl, by decide⟩

/-- Claim C6: saving a config with any `notesPath` and loading it back yields
exactly that value (the TOML store is the external collaborator, modelled as
storing the `Config` value faithfully). -/
theorem saveLoad_roundTrip (h p : String) (fs : ConfigFile) :
    (saveConfigRun (.ok h) .ok { notesPath := p } fs).2 = .configSaved
    ∧ loadConfigMsg (.ok h) (saveConfigRun (.ok h) .ok { notesPath := p } fs).1
        = .configLoaded { notesPath := p }
    ∧ (Config.mk p).notesPath = p :=
  ⟨rfl, rfl, rfl⟩

/-- Claim C7: a failing walk (missing or untraversable root) produces an
`errorMsg` carrying the cause; the update loop records it and quits — the
total transition function cannot panic — and the final frame reports the
error to the user. -/
theorem scanFailure_fatal (ext : Externals) (m : Model) (root e : String) :
    findNotesMsg root (.error e) = .error e
    ∧ update ext m (.error e) = ({ m with err := some e }, .quit)
    ∧ Model.view ({ m with err := some e }) = "Error: " ++ e :=
  ⟨rfl, rfl, rfl⟩

/-- Claim C10: in the list state with no viewport, no active filter typing
and no selectable item (empty scan result or a filter that excludes every
note), a confirm input returns the model unchanged with the nil command: no
dispatch, no panic. -/
theorem emptyConfirm_noop (ext : Externals) (m : Model)
    (hstate : m.state = .stateShowList) (hvp : m.showViewport = false)
    (hfil : m.list.filtering = false) (hsel : m.list.selectedItem = none) :
    update ext m (.key .enter) = (m, .nil) := by
  simp [update, delegate, hstate, updateListView, hvp, hfil, hsel]

/-- The list state straight after a scan that found zero notes. -/
def emptyBrowsing : Model :=
  { initialModel with state := .stateShowList }

/-- Witness for claim C10 at the empty list. -/
theorem emptyConfirm_noop_witness :
    (emptyBrowsing.state = .stateShowList ∧ emptyBrowsing.showViewport = false
      ∧ emptyBrowsing.list.filtering = false ∧ emptyBrowsing.list.selectedItem = none)
    ∧ update extDefault emptyBrowsing (.key .enter) = (emptyBrowsing, .nil) :=
  ⟨⟨rfl, rfl, rfl, rfl⟩, emptyConfirm_noop extDefault emptyBrowsing rfl rfl rfl rfl⟩

/-- Claim C5: confirming a selected Markdown note dispatches its read; a
successful read delivers the bytes as a `fileContentMsg`; rendering those
bytes at the viewport width either succeeds — showing the viewport with the
styled content scrolled to the top — or fails, which records the render
error and quits (Fatal). -/
theorem markdownView_flow (ext : Externals) (m : Model) (p bytes : String)
    (hstate : m.state = .stateShowList) (hvp : m.showViewport = false)
    (hfil : m.list.filtering = false)
    (hsel : m.list.selectedItem = some { path := p, noteType := "md" }) :
    update ext m (.key .enter) = (m, .readMarkdown p)
    ∧ readMarkdownMsg p (.ok bytes) = .fileContent bytes
    ∧ (∀ styled, ext.render bytes m.viewport.width = .ok styled →
        update ext m (.fileContent bytes)
          = ({ m with showViewport := true, viewport := { m.viewport with content := styled, yOffset := 0 } }, .nil))
    ∧ (∀ e, ext.render bytes m.viewport.width = .error e →
        update ext m (.fileContent bytes)
          = ({ m with showViewport := true, err := some e }, .quit)) := by
  refine ⟨?_, rfl, ?_, ?_⟩
  · simp [update, delegate, hstate, updateListView, hvp, hfil, hsel]
  · intro styled hr
    simp [update, delegate, hstate, updateListView, hvp, hr]
  · intro e hr
    simp [update, delegate, hstate, updateListView, hvp, hr]

/-- The list state with a single selected Markdown note. -/
def browsingMd : Model :=
  { initialModel with
    state := .stateShowList
    list := { initialModel.list with items := [{ path := "notes/a.md", noteType := "md" }] } }

/-- Witness for claim C5 on `notes/a.md` with bytes `"# Hi"`. -/
theorem markdownView_flow_witness :
    (browsingMd.state = .stateShowList ∧ browsingMd.showViewport = false
      ∧ browsingMd.list.filtering = false
      ∧ browsingMd.list.selectedItem = some { path := "notes/a.md", noteType := "md" })
    ∧ (update extDefault browsingMd (.key .enter) = (browsingMd, .readMarkdown "notes/a.md")
      ∧ readMarkdownMsg "notes/a.md" (.ok "# Hi") = .fileContent "# Hi"
      ∧ (∀ styled, extDefault.render "# Hi" browsingMd.viewport.width = .ok styled →
          update extDefault browsingMd (.fileContent "# Hi")
            = ({ browsingMd with showViewport := true, viewport := { browsingMd.viewport with content := styled, yOffset := 0 } }, .nil))
      ∧ (∀ e, extDefault.render "# Hi" browsingMd.viewport.width = .error e →
          update extDefault browsingMd (.fileContent "# Hi")
            = ({ browsingMd with showViewport := true, err := some e }, .quit))) :=
  ⟨⟨rfl, rfl, rfl, rfl⟩,
    markdownView_flow extDefault browsingMd "notes/a.md" "# Hi" rfl rfl rfl rfl⟩

/-- Claim C8: confirming a selected Pdf note dispatches the external opener;
on a supported platform a successful launch produces the nil message, whose
delivery leaves the model entirely unchanged; on an unsupported platform the
command produces an error message naming the platform, which records the
error and quits (Fatal). -/
theorem pdfOpen_flow (ext : Externals) (m : Model) (p goos : String) (runErr : Option String)
    (hstate : m.state = .stateShowList) (hvp : m.showViewport = false)
    (hfil : m.list.filtering = false)
    (hsel : m.list.selectedItem = some { path := p, noteType := "pdf" })
    (hgoos : goos ≠ "darwin" ∧ goos ≠ "linux" ∧ goos ≠ "windows") :
    update ext m (.key .enter) = (m, .openPDF p)
    ∧ openPDFMsg "linux" p none = none
    ∧ deliver ext m (openPDFMsg "linux" p none) = (m, .nil)
    ∧ openPDFMsg goos p runErr = some (.error ("unsupported operating system: " ++ goos))
    ∧ update ext m (.error ("unsupported operating system: " ++ goos))
        = ({ m with err := some ("unsupported operating system: " ++ goos) }, .quit) := by
  refine ⟨?_, rfl, rfl, ?_, rfl⟩
  · simp [update, delegate, hstate, updateListView, hvp, hfil, hsel]
  · simp [openPDFMsg, hgoos.1, hgoos.2.1, hgoos.2.2]

/-- The list state with a single selected Pdf note. -/
def browsingPdf : Model :=
  { initialModel with
    state := .stateShowList
    list := { initialModel.list with items := [{ path := "notes/b.pdf", noteType := "pdf" }] } }

/-- Witness for claim C8 on `notes/b.pdf` with the unsupported platform
`plan9`. -/
theorem pdfOpen_flow_witness :
    (browsingPdf.state = .stateShowList ∧ browsingPdf.showViewport = false
      ∧ browsingPdf.list.filtering = false
      ∧ browsingPdf.list.selectedItem = some { path := "notes/b.pdf", noteType := "pdf" }
      ∧ ("plan9" ≠ "darwin" ∧ "plan9" ≠ "linux" ∧ "plan9" ≠ "windows"))
    ∧ (update extDefault browsingPdf (.key .enter) = (browsingPdf, .openPDF "notes/b.pdf")
      ∧ openPDFMsg "linux" "notes/b.pdf" none = none
      ∧ deliver extDefault browsingPdf (openPDFMsg "linux" "notes/b.pdf" none) = (browsingPdf, .nil)
      ∧ openPDFMsg "plan9" "notes/b.pdf" none = some (.error ("unsupported operating system: " ++ "plan9"))
      ∧ update extDefault browsingPdf (.error ("unsupported operating system: " ++ "plan9"))
          = ({ browsingPdf with err := some ("unsupported operating system: " ++ "plan9") }, .quit)) :=
  ⟨⟨rfl, rfl, rfl, rfl, by decide⟩,
    pdfOpen_flow extDefault browsingPdf "notes/b.pdf" "plan9" none rfl rfl rfl rfl (by decide)⟩

/-- Claim C3, counterexample: an `errorMsg` (here a scan failure) records the
error — the Fatal state — and ends the session through `tea.Quit`, after
which `p.Run` returns no error and the process exits 0, not non-zero. -/
theorem fatal_exitCode_counterexample :
    (update extDefault initialModel (.error "scan failed")).1.err = some "scan failed"
    ∧ (update extDefault initialModel (.error "scan failed")).2 = .quit
    ∧ mainGoExitCode none = 0 := ⟨rfl, rfl, rfl⟩

/-- Claim C3 (amended): a normal quit exits 0; the earlier single-file
variant exits non-zero when startup fails (config initialization or scan);
but in `main.go` every `errorMsg`-driven Fatal ending also quits with exit
code 0, the error being surfaced only through the final rendered frame. -/
theorem exitCode_behavior (e : String) (c : Config) (n : Except String (List Item))
    (t : Option String) (m : Model) :
    ((update extDefault m (.key .ctrlC)).2 = .quit ∧ mainGoExitCode none = 0)
    ∧ mainV0ExitCode (.error e) n t = 1
    ∧ mainV0ExitCode (.ok c) (.error e) t = 1
    ∧ (update extDefault m (.error e) = ({ m with err := some e }, .quit)
      ∧ mainGoExitCode none = 0
      ∧ Model.view ({ m with err := some e }) = "Error: " ++ e) :=
  ⟨⟨rfl, rfl⟩, rfl, rfl, rfl, rfl, rfl⟩

/-- Claim C9, counterexample: pressing enter twice at the path prompt before
the first save result arrives dispatches a second save while the first is
still outstanding, so the no-duplicate-dispatch property fails on a
reachable trace. -/
theorem noDouble_counterexample : ¬ noDoubleDispatch extDefault := by
  intro h
  have r0 : Reachable extDefault ⟨initialModel, .absent, [.loadConfig]⟩ :=
    Reachable.init .absent
  have sA : Step extDefault ⟨initialModel, .absent, [.loadConfig]⟩ .nil
      ⟨promptModel, .absent, []⟩ :=
    Step.deliverStep ⟨initialModel, .absent, [.loadConfig]⟩ .loadConfig [] [] .absent
      (some (loadConfigMsg (.ok "/h") .absent)) promptModel .nil rfl
      (Delivers.load .absent (.ok "/h")) rfl
  have r1 := Reachable.step _ _ _ r0 sA
  have sB : Step extDefault ⟨promptModel, .absent, []⟩ (.saveConfig { notesPath := "" })
      ⟨promptModel, .absent, [.saveConfig { notesPath := "" }]⟩ :=
    Step.input ⟨promptModel, .absent, []⟩ (.key .enter) promptModel
      (.saveConfig { notesPath := "" }) rfl rfl
  have r2 := Reachable.step _ _ _ r1 sB
  have sC : Step extDefault ⟨promptModel, .absent, [.saveConfig { notesPath := "" }]⟩
      (.saveConfig { notesPath := "" })
      ⟨promptModel, .absent, [.saveConfig { notesPath := "" }, .saveConfig { notesPath := "" }]⟩ :=
    Step.input _ (.key .enter) promptModel (.saveConfig { notesPath := "" }) rfl rfl
  exact h _ _ _ r2 sC .save rfl (.saveConfig { notesPath := "" }) (by simp) rfl

/-- The list state after loading the config `/n` and before the scan result
arrives. -/
def scanModel : Model :=
  { initialModel with
    config := { notesPath := "/n" }
    state := .stateShowList }

/-- The list state after the scan of `/n` found the single note `a.md`. -/
def listedModel : Model :=
  { scanModel with list := scanModel.list.setItems [{ path := "/n/a.md", noteType := "md" }] }

/-- Claim C9 (amended): the state machine has no in-flight guard — there is a
reachable step dispatching a command whose kind is already outstanding; in
particular two confirm inputs on the same Markdown note before the first read
result arrives dispatch two reads. -/
theorem duplicateDispatch_reachable :
    ∃ s c s2, Reachable extDefault s ∧ Step extDefault s c s2
      ∧ ∃ k, c.kind = some k ∧ ∃ c2, c2 ∈ s.pending ∧ c2.kind = some k := by
  have r0 : Reachable extDefault ⟨initialModel, .parsed { notesPath := "/n" }, [.loadConfig]⟩ :=
    Reachable.init _
  have sA : Step extDefault ⟨initialModel, .parsed { notesPath := "/n" }, [.loadConfig]⟩
      (.findNotes "/n") ⟨scanModel, .parsed { notesPath := "/n" }, [.findNotes "/n"]⟩ :=
    Step.deliverStep _ .loadConfig [] [] _
      (some (loadConfigMsg (.ok "/h") (.parsed { notesPath := "/n" })))
      scanModel (.findNotes "/n") rfl (Delivers.load _ (.ok "/h")) rfl
  have r1 := Reachable.step _ _ _ r0 sA
  have sB : Step extDefault ⟨scanModel, .parsed { notesPath := "/n" }, [.findNotes "/n"]⟩
      .nil ⟨listedModel, .parsed { notesPath := "/n" }, []⟩ :=
    Step.deliverStep _ (.findNotes "/n") [] [] _
      (some (findNotesMsg "/n" (.ok (.dir "n" [.file "a.md"]))))
      listedModel .nil rfl (Delivers.scan _ "/n" (.ok (.dir "n" [.file "a.md"]))) rfl
  have r2 := Reachable.step _ _ _ r1 sB
  have sC : Step extDefault ⟨listedModel, .parsed { notesPath := "/n" }, []⟩
      (.readMarkdown "/n/a.md")
      ⟨listedModel, .parsed { notesPath := "/n" }, [.readMarkdown "/n/a.md"]⟩ :=
    Step.input _ (.key .enter) listedModel (.readMarkdown "/n/a.md") rfl rfl
  have r3 := Reachable.step _ _ _ r2 sC
  have sD : Step extDefault ⟨listedModel, .parsed { notesPath := "/n" }, [.readMarkdown "/n/a.md"]⟩
      (.readMarkdown "/n/a.md")
      ⟨listedModel, .parsed { notesPath := "/n" },
        [.readMarkdown "/n/a.md", .readMarkdown "/n/a.md"]⟩ :=
    Step.input _ (.key .enter) listedModel (.readMarkdown "/n/a.md") rfl rfl
  exact ⟨_, _, _, r3, sD, .read, rfl, .readMarkdown "/n/a.md", by simp, rfl⟩
